import Mathlib

/-!
Shallow embedding of the M/M/1 queue simulator (`main.py`): the simulation
engine `MM1Queue` (construction, `step`, arrival/departure handlers), the
time-breakdown statistic, and the `UtilizationOptimizer` controller.

Modelling conventions:
* Python floats are modelled as exact rationals `ℚ`.
* `float('inf')` (the idle server's `next_departure_time`) is modelled by
  `Option ℚ` with `none` standing for `+∞`.
* The process-wide random source is an oracle `Nat → ℚ` of
  standard-exponential samples; each `random.expovariate(rate)` call consumes
  one sample `u` and returns `u / rate`.  The state field `rng` counts the
  samples consumed so far.
* Python lists that are appended at the tail (the history buffers, the
  completed-customer log, the recent-journeys ring) are stored newest-first
  (cons at the head); the Python list is the reverse of the Lean list, so
  `l[-k:]` becomes `l.take k` and `append x` becomes `x :: l`.
-/

namespace MM1

/-- A stream of standard-exponential samples: `o i` models the value
`-log(1 - random())` produced by the `i`-th call to the process-wide random
source. -/
def Oracle : Type := Nat → ℚ

/-- Python `random.expovariate(rate)`: a standard-exponential sample divided by the
rate.  Python raises `ZeroDivisionError` when `rate == 0`; the total rational
division returns `0` there, and the construction-time failure is modelled
separately by `construct`. -/
def expovariate (rate u : ℚ) : ℚ := u / rate

/-- The `Customer` dataclass. -/
structure Customer where
  id : Nat
  arrival_time : ℚ
  service_time : ℚ
  start_service_time : Option ℚ := none
  departure_time : Option ℚ := none
deriving DecidableEq

/-- Property `Customer.wait_time`: time spent waiting in queue. -/
def Customer.wait_time (c : Customer) : ℚ :=
  match c.start_service_time with
  | none => 0
  | some t => t - c.arrival_time

/-- Property `Customer.time_in_system`: total time in system. -/
def Customer.time_in_system (c : Customer) : ℚ :=
  match c.departure_time with
  | none => 0
  | some t => t - c.arrival_time

/-- Property `Customer.is_completed`. -/
def Customer.is_completed (c : Customer) : Bool := c.departure_time.isSome

/-- The `MM1Queue` engine state (all fields of `__init__`). -/
structure MM1Queue where
  arrival_rate : ℚ
  service_rate : ℚ
  queue : List Customer            -- FIFO waiting line, head = front
  server_busy : Bool
  current_time : ℚ
  next_arrival_time : ℚ
  next_departure_time : Option ℚ   -- `none` models `float('inf')`
  total_customers : Nat
  customers_served : Nat
  total_wait_time : ℚ
  total_service_time : ℚ
  queue_length_history : List Nat  -- newest first
  time_history : List ℚ            -- newest first
  utilization_history : List ℚ     -- newest first
  server_busy_time : ℚ
  last_update_time : ℚ
  next_customer_id : Nat
  completed_customers : List Customer  -- newest first
  current_customer : Option Customer
  recent_journeys : List Customer      -- newest first, capacity 5
  total_time_in_system : ℚ
  time_weighted_customers : ℚ
  last_measurement_time : ℚ
  steady_state_threshold : Nat
  confidence_level : ℚ
  rng : Nat                        -- samples consumed from the random source
deriving DecidableEq

/-- Method `MM1Queue.schedule_next_arrival`. -/
def schedule_next_arrival (o : Oracle) (s : MM1Queue) : MM1Queue :=
  let inter_arrival_time := expovariate s.arrival_rate (o s.rng)
  { s with rng := s.rng + 1,
           next_arrival_time := s.current_time + inter_arrival_time }

/-- Method `MM1Queue.schedule_next_departure`: draws a service time, stamps the
customer (Python mutates the shared object) and schedules the departure. -/
def schedule_next_departure (o : Oracle) (s : MM1Queue) (c : Customer) :
    MM1Queue × Customer :=
  let service_time := expovariate s.service_rate (o s.rng)
  let c := { c with service_time := service_time,
                    start_service_time := some s.current_time }
  ({ s with rng := s.rng + 1,
            next_departure_time := some (s.current_time + service_time) }, c)

/-- Method `MM1Queue.arrive_customer`. -/
def arrive_customer (o : Oracle) (s : MM1Queue) : MM1Queue :=
  let c : Customer :=
    { id := s.next_customer_id, arrival_time := s.current_time, service_time := 0 }
  let s := { s with next_customer_id := s.next_customer_id + 1,
                    total_customers := s.total_customers + 1 }
  let s :=
    if !s.server_busy then
      let sc := schedule_next_departure o s c
      { sc.1 with server_busy := true, current_customer := some sc.2 }
    else
      { s with queue := s.queue ++ [c] }
  schedule_next_arrival o s

/-- Method `MM1Queue.depart_customer`. -/
def depart_customer (o : Oracle) (s : MM1Queue) : MM1Queue :=
  let s :=
    match s.current_customer with
    | some c =>
      let c := { c with departure_time := some s.current_time }
      let completed := c :: s.completed_customers
      let completed := if 1000 < completed.length then completed.take 500 else completed
      { s with customers_served := s.customers_served + 1,
               total_wait_time := s.total_wait_time + c.wait_time,
               total_time_in_system := s.total_time_in_system + c.time_in_system,
               completed_customers := completed,
               recent_journeys := (c :: s.recent_journeys).take 5,
               current_customer := some c }
    | none => s
  match s.queue with
  | next_customer :: rest =>
      let sc := schedule_next_departure o { s with queue := rest } next_customer
      { sc.1 with current_customer := some sc.2 }
  | [] =>
      { s with server_busy := false, current_customer := none,
               next_departure_time := none }

/-- Comparison `a <= d` where `d` may be `float('inf')` (`none`). -/
def leInfty (a : ℚ) (d : Option ℚ) : Bool :=
  match d with
  | none => true
  | some d => decide (a ≤ d)

/-- The accounting prelude of `MM1Queue.step` (everything before the event is
selected): integrate the Little's-Law and busy-time accumulators, record the
history entries, and stamp `last_update_time` — all at the pre-advance
`current_time`. -/
def recordState (s : MM1Queue) : MM1Queue :=
  let time_delta := s.current_time - s.last_measurement_time
  let customers_in_system : Nat := s.queue.length + (if s.server_busy then 1 else 0)
  let s := { s with
    time_weighted_customers :=
      s.time_weighted_customers + (customers_in_system : ℚ) * time_delta,
    last_measurement_time := s.current_time }
  let s :=
    if s.server_busy then
      { s with server_busy_time :=
          s.server_busy_time + (s.current_time - s.last_update_time) }
    else s
  let s := { s with
    queue_length_history := s.queue.length :: s.queue_length_history,
    time_history := s.current_time :: s.time_history }
  let s :=
    if 0 < s.current_time then
      { s with utilization_history :=
          (s.server_busy_time / s.current_time) :: s.utilization_history }
    else s
  { s with last_update_time := s.current_time }

/-- Method `MM1Queue.step`: run the accounting prelude, then advance the clock to the
next event (arrival on ties) and dispatch. -/
def step (o : Oracle) (s : MM1Queue) : MM1Queue :=
  let s := recordState s
  if leInfty s.next_arrival_time s.next_departure_time then
    arrive_customer o { s with current_time := s.next_arrival_time }
  else
    depart_customer o { s with current_time := (s.next_departure_time).getD 0 }

/-- Constructor `MM1Queue.__init__`: field initialisation followed by scheduling the first
arrival. -/
def MM1Queue.init (arrival_rate service_rate : ℚ) (o : Oracle) : MM1Queue :=
  let s : MM1Queue :=
    { arrival_rate := arrival_rate
      service_rate := service_rate
      queue := []
      server_busy := false
      current_time := 0
      next_arrival_time := 0
      next_departure_time := none
      total_customers := 0
      customers_served := 0
      total_wait_time := 0
      total_service_time := 0
      queue_length_history := []
      time_history := []
      utilization_history := []
      server_busy_time := 0
      last_update_time := 0
      next_customer_id := 1
      completed_customers := []
      current_customer := none
      recent_journeys := []
      total_time_in_system := 0
      time_weighted_customers := 0
      last_measurement_time := 0
      steady_state_threshold := 100
      confidence_level := 0
      rng := 0 }
  schedule_next_arrival o s

/-- Result of attempting `MM1Queue(arrival_rate, service_rate)`. -/
inductive ConstructResult
  | ok (s : MM1Queue)
  | zeroDivisionError
deriving DecidableEq

/-- Constructor `MM1Queue.__init__` as observed by a caller: no rate validation is
performed; the only failure mode is the `ZeroDivisionError` raised inside
`random.expovariate` when `arrival_rate == 0` (the first arrival is scheduled
during construction; the service rate is not sampled at construction time). -/
def construct (arrival_rate service_rate : ℚ) (o : Oracle) : ConstructResult :=
  if arrival_rate = 0 then .zeroDivisionError
  else .ok (MM1Queue.init arrival_rate service_rate o)

/-- Iteration `runSteps o n s`: the state after `n` further calls to `step`. -/
def runSteps (o : Oracle) : Nat → MM1Queue → MM1Queue
  | 0, s => s
  | n + 1, s => runSteps o n (step o s)

/-- The dictionary returned by `MM1Queue.get_time_breakdown` (when not
`None`). -/
structure TimeBreakdown where
  avg_wait_time : ℚ
  avg_service_time : ℚ
  avg_time_in_system : ℚ
  wait_fraction : ℚ
  service_fraction : ℚ
deriving DecidableEq

/-- Method `MM1Queue.get_time_breakdown`. -/
def get_time_breakdown (s : MM1Queue) : Option TimeBreakdown :=
  if s.customers_served < 5 then none
  else
    let total_wait := s.total_wait_time
    let total_service := (s.completed_customers.map Customer.service_time).sum
    let total_system := s.total_time_in_system
    let avg_wait := total_wait / (s.customers_served : ℚ)
    let avg_service :=
      if 0 < s.customers_served then total_service / (s.customers_served : ℚ) else 0
    let avg_system := total_system / (s.customers_served : ℚ)
    some { avg_wait_time := avg_wait
           avg_service_time := avg_service
           avg_time_in_system := avg_system
           wait_fraction := avg_wait / max avg_system (1/1000)
           service_fraction := avg_service / max avg_system (1/1000) }

/-- The `UtilizationOptimizer` state. -/
structure UtilizationOptimizer where
  target_utilization : ℚ
  optimization_enabled : Bool
  adjustment_rate : ℚ
  measurement_window : Nat
  strategy : String
  max_arrival_rate : ℚ
  min_service_rate : ℚ
  demonstration_phase : Nat
deriving DecidableEq

/-- Constructor `UtilizationOptimizer.__init__`. -/
def UtilizationOptimizer.init (target_utilization : ℚ) : UtilizationOptimizer :=
  { target_utilization := target_utilization
    optimization_enabled := false
    adjustment_rate := 1/100
    measurement_window := 100
    strategy := "arrival_rate"
    max_arrival_rate := 10
    min_service_rate := 1/2
    demonstration_phase := 0 }

/-- Method `UtilizationOptimizer._optimize_arrival_rate_only`. -/
def optimize_arrival_rate_only (opt : UtilizationOptimizer) (q : MM1Queue)
    (recent_util _current_rho : ℚ) : MM1Queue :=
  let util_error := opt.target_utilization - recent_util
  if 1/50 < |util_error| then
    if 0 < util_error then
      { q with arrival_rate := min opt.max_arrival_rate (q.arrival_rate + opt.adjustment_rate) }
    else
      { q with arrival_rate := max (1/10) (q.arrival_rate - opt.adjustment_rate) }
  else q

/-- Method `UtilizationOptimizer._optimize_service_rate_only`. -/
def optimize_service_rate_only (opt : UtilizationOptimizer) (q : MM1Queue)
    (recent_util _current_rho : ℚ) : MM1Queue :=
  let util_error := opt.target_utilization - recent_util
  if 1/50 < |util_error| then
    if 0 < util_error then
      let target_mu := q.arrival_rate / opt.target_utilization
      { q with service_rate := max opt.min_service_rate (min target_mu (q.service_rate - opt.adjustment_rate / 2)) }
    else
      { q with service_rate := q.service_rate + opt.adjustment_rate }
  else q

/-- Method `UtilizationOptimizer._optimize_balanced`. -/
def optimize_balanced (opt : UtilizationOptimizer) (q : MM1Queue)
    (recent_util current_rho : ℚ) : MM1Queue :=
  let util_error := opt.target_utilization - recent_util
  if 1/50 < |util_error| then
    if 0 < util_error then
      if current_rho < 49/50 then
        let q := { q with arrival_rate := q.arrival_rate + opt.adjustment_rate / 2 }
        { q with service_rate := q.arrival_rate + 1/100 }
      else
        let q := { q with arrival_rate := q.arrival_rate + opt.adjustment_rate / 10 }
        { q with service_rate := q.arrival_rate + 1/200 }
    else
      { q with service_rate := q.service_rate + opt.adjustment_rate }
  else q

/-- Method `UtilizationOptimizer._demonstrate_instability`: increments the phase
counter, then dispatches on its post-increment value. -/
def demonstrate_instability (opt : UtilizationOptimizer) (q : MM1Queue)
    (_recent_util current_rho : ℚ) : UtilizationOptimizer × MM1Queue :=
  let opt := { opt with demonstration_phase := opt.demonstration_phase + 1 }
  if opt.demonstration_phase < 200 then
    (opt, if current_rho < 6/5 then
            { q with arrival_rate := q.arrival_rate + 1/200 } else q)
  else if opt.demonstration_phase < 400 then
    (opt, if 4/5 < current_rho then
            { q with arrival_rate := q.arrival_rate - 1/100 } else q)
  else
    ({ opt with demonstration_phase := 0 }, q)

/-- Method `UtilizationOptimizer.optimize_step`. -/
def optimize_step (opt : UtilizationOptimizer) (q : MM1Queue) :
    UtilizationOptimizer × MM1Queue :=
  if !opt.optimization_enabled then (opt, q)
  else if q.utilization_history.length < opt.measurement_window then (opt, q)
  else
    let recent_util :=
      (q.utilization_history.take opt.measurement_window).sum /
        (opt.measurement_window : ℚ)
    let current_rho := q.arrival_rate / q.service_rate
    if opt.strategy = "arrival_rate" then
      (opt, optimize_arrival_rate_only opt q recent_util current_rho)
    else if opt.strategy = "service_rate" then
      (opt, optimize_service_rate_only opt q recent_util current_rho)
    else if opt.strategy = "balanced" then
      (opt, optimize_balanced opt q recent_util current_rho)
    else if opt.strategy = "demonstrate_instability" then
      demonstrate_instability opt q recent_util current_rho
    else (opt, q)

/-- Iterate `optimize_step` on a controller/engine pair. -/
def optIter (n : Nat) (p : UtilizationOptimizer × MM1Queue) :
    UtilizationOptimizer × MM1Queue :=
  match n with
  | 0 => p
  | n + 1 => optIter n (optimize_step p.1 p.2)

/-- The phase-counter dynamics of `_demonstrate_instability` in isolation. -/
def phaseStep (p : Nat) : Nat := if p + 1 < 400 then p + 1 else 0

/-- Iterated phase-counter dynamics. -/
def phaseIter (n p : Nat) : Nat :=
  match n with
  | 0 => p
  | n + 1 => phaseIter n (phaseStep p)

/-! ### Effect lemmas for the accounting prelude `recordState` -/

theorem recordState_arrival_rate (s : MM1Queue) :
    (recordState s).arrival_rate = s.arrival_rate := by
  unfold recordState; by_cases hb : s.server_busy <;> by_cases ht : 0 < s.current_time <;>
    simp [hb, ht]

theorem recordState_service_rate (s : MM1Queue) :
    (recordState s).service_rate = s.service_rate := by
  unfold recordState; by_cases hb : s.server_busy <;> by_cases ht : 0 < s.current_time <;>
    simp [hb, ht]

theorem recordState_queue (s : MM1Queue) : (recordState s).queue = s.queue := by
  unfold recordState; by_cases hb : s.server_busy <;> by_cases ht : 0 < s.current_time <;>
    simp [hb, ht]

theorem recordState_server_busy (s : MM1Queue) :
    (recordState s).server_busy = s.server_busy := by
  unfold recordState; by_cases hb : s.server_busy <;> by_cases ht : 0 < s.current_time <;>
    simp [hb, ht]

theorem recordState_current_time (s : MM1Queue) :
    (recordState s).current_time = s.current_time := by
  unfold recordState; by_cases hb : s.server_busy <;> by_cases ht : 0 < s.current_time <;>
    simp [hb, ht]

theorem recordState_next_arrival_time (s : MM1Queue) :
    (recordState s).next_arrival_time = s.next_arrival_time := by
  unfold recordState; by_cases hb : s.server_busy <;> by_cases ht : 0 < s.current_time <;>
    simp [hb, ht]

theorem recordState_next_departure_time (s : MM1Queue) :
    (recordState s).next_departure_time = s.next_departure_time := by
  unfold recordState; by_cases hb : s.server_busy <;> by_cases ht : 0 < s.current_time <;>
    simp [hb, ht]

theorem recordState_total_customers (s : MM1Queue) :
    (recordState s).total_customers = s.total_customers := by
  unfold recordState; by_cases hb : s.server_busy <;> by_cases ht : 0 < s.current_time <;>
    simp [hb, ht]

theorem recordState_customers_served (s : MM1Queue) :
    (recordState s).customers_served = s.customers_served := by
  unfold recordState; by_cases hb : s.server_busy <;> by_cases ht : 0 < s.current_time <;>
    simp [hb, ht]

theorem recordState_current_customer (s : MM1Queue) :
    (recordState s).current_customer = s.current_customer := by
  unfold recordState; by_cases hb : s.server_busy <;> by_cases ht : 0 < s.current_time <;>
    simp [hb, ht]

theorem recordState_completed_customers (s : MM1Queue) :
    (recordState s).completed_customers = s.completed_customers := by
  unfold recordState; by_cases hb : s.server_busy <;> by_cases ht : 0 < s.current_time <;>
    simp [hb, ht]

theorem recordState_next_customer_id (s : MM1Queue) :
    (recordState s).next_customer_id = s.next_customer_id := by
  unfold recordState; by_cases hb : s.server_busy <;> by_cases ht : 0 < s.current_time <;>
    simp [hb, ht]

theorem recordState_rng (s : MM1Queue) : (recordState s).rng = s.rng := by
  unfold recordState; by_cases hb : s.server_busy <;> by_cases ht : 0 < s.current_time <;>
    simp [hb, ht]

theorem recordState_time_history (s : MM1Queue) :
    (recordState s).time_history = s.current_time :: s.time_history := by
  unfold recordState; by_cases hb : s.server_busy <;> by_cases ht : 0 < s.current_time <;>
    simp [hb, ht]

theorem recordState_queue_length_history (s : MM1Queue) :
    (recordState s).queue_length_history = s.queue.length :: s.queue_length_history := by
  unfold recordState; by_cases hb : s.server_busy <;> by_cases ht : 0 < s.current_time <;>
    simp [hb, ht]

theorem recordState_utilization_history (s : MM1Queue) :
    (recordState s).utilization_history =
      if 0 < s.current_time then
        (if s.server_busy then
            s.server_busy_time + (s.current_time - s.last_update_time)
          else s.server_busy_time) / s.current_time :: s.utilization_history
      else s.utilization_history := by
  unfold recordState; by_cases hb : s.server_busy <;> by_cases ht : 0 < s.current_time <;>
    simp [hb, ht]

/-- Rewriting `step` over `recordState` with the event condition expressed on the
original state (the prelude does not touch the event clocks). -/
theorem step_eq (o : Oracle) (s : MM1Queue) :
    step o s =
      if leInfty s.next_arrival_time s.next_departure_time then
        arrive_customer o { recordState s with current_time := s.next_arrival_time }
      else
        depart_customer o
          { recordState s with current_time := (s.next_departure_time).getD 0 } := by
  unfold step
  simp only [recordState_next_arrival_time, recordState_next_departure_time]

/-! ### The engine invariant preserved by `step` -/

/-- Invariant of reachable engine states: the idle-server equivalences, the
conservation of customers, and the size of the completed-customer log before
any trim can have happened. -/
def EngineInv (s : MM1Queue) : Prop :=
  (s.server_busy = false ↔ s.current_customer = none) ∧
  (s.server_busy = false ↔ s.next_departure_time = none) ∧
  s.total_customers = s.customers_served + s.queue.length +
    (if s.server_busy then 1 else 0) ∧
  (s.customers_served ≤ 1000 → s.completed_customers.length = s.customers_served)

theorem engineInv_init (a m : ℚ) (o : Oracle) : EngineInv (MM1Queue.init a m o) := by
  unfold EngineInv MM1Queue.init schedule_next_arrival
  simp

theorem engineInv_pre (s : MM1Queue) (t : ℚ) :
    EngineInv { recordState s with current_time := t } ↔ EngineInv s := by
  unfold EngineInv
  simp only [recordState_server_busy, recordState_current_customer,
    recordState_next_departure_time, recordState_total_customers,
    recordState_customers_served, recordState_queue, recordState_completed_customers]

theorem engineInv_arrive (o : Oracle) (s : MM1Queue) (h : EngineInv s) :
    EngineInv (arrive_customer o s) := by
  obtain ⟨h1, h2, h3, h4⟩ := h
  unfold arrive_customer schedule_next_arrival schedule_next_departure
  by_cases hb : s.server_busy
  · refine ⟨?_, ?_, ?_, ?_⟩ <;> simp [EngineInv, hb] at *
    · exact h1
    · exact h2
    · omega
    · exact h4
  · refine ⟨?_, ?_, ?_, ?_⟩ <;> simp [EngineInv, hb] at *
    · omega
    · exact h4

theorem engineInv_depart (o : Oracle) (s : MM1Queue) (h : EngineInv s)
    (hd : s.next_departure_time ≠ none) : EngineInv (depart_customer o s) := by
  obtain ⟨h1, h2, h3, h4⟩ := h
  have hb : s.server_busy = true := by
    cases hsb : s.server_busy
    · exact absurd (h2.mp hsb) hd
    · rfl
  obtain ⟨c, hc⟩ : ∃ c, s.current_customer = some c := by
    cases hcc : s.current_customer
    · exact absurd (h1.mpr hcc) (by simp [hb])
    · exact ⟨_, rfl⟩
  unfold depart_customer schedule_next_departure
  rw [hc]
  cases hq : s.queue with
  | nil =>
    refine ⟨by simp, by simp, ?_, ?_⟩ <;> simp [hb, hq] at h3 ⊢
    · omega
    · intro hle
      have hlen := h4 (by omega)
      rw [if_neg (by simp [hlen]; omega)]
      simp [hlen]
  | cons x rest =>
    refine ⟨?_, ?_, ?_, ?_⟩ <;> simp [hb, hq] at h3 ⊢
    · omega
    · intro hle
      have hlen := h4 (by omega)
      rw [if_neg (by simp [hlen]; omega)]
      simp [hlen]

theorem engineInv_step (o : Oracle) (s : MM1Queue) (h : EngineInv s) :
    EngineInv (step o s) := by
  rw [step_eq]
  by_cases hev : leInfty s.next_arrival_time s.next_departure_time
  · rw [if_pos hev]
    exact engineInv_arrive o _ ((engineInv_pre s _).mpr h)
  · rw [if_neg hev]
    have hd : s.next_departure_time ≠ none := by
      intro hdn
      exact hev (by simp [leInfty, hdn])
    refine engineInv_depart o _ ((engineInv_pre s _).mpr h) ?_
    simpa [recordState_next_departure_time] using hd

theorem engineInv_iter (o : Oracle) (n : Nat) (s : MM1Queue) (h : EngineInv s) :
    EngineInv (runSteps o n s) := by
  induction n generalizing s with
  | zero => exact h
  | succ n ih => exact ih _ (engineInv_step o s h)

theorem engineInv_reachable (a m : ℚ) (o : Oracle) (n : Nat) :
    EngineInv (runSteps o n (MM1Queue.init a m o)) :=
  engineInv_iter o n _ (engineInv_init a m o)

/-! ### History buffers are untouched by the event handlers -/

theorem arrive_time_history (o : Oracle) (s : MM1Queue) :
    (arrive_customer o s).time_history = s.time_history := by
  unfold arrive_customer schedule_next_arrival schedule_next_departure
  by_cases hb : s.server_busy <;> simp [hb]

theorem arrive_queue_length_history (o : Oracle) (s : MM1Queue) :
    (arrive_customer o s).queue_length_history = s.queue_length_history := by
  unfold arrive_customer schedule_next_arrival schedule_next_departure
  by_cases hb : s.server_busy <;> simp [hb]

theorem arrive_utilization_history (o : Oracle) (s : MM1Queue) :
    (arrive_customer o s).utilization_history = s.utilization_history := by
  unfold arrive_customer schedule_next_arrival schedule_next_departure
  by_cases hb : s.server_busy <;> simp [hb]

theorem depart_time_history (o : Oracle) (s : MM1Queue) :
    (depart_customer o s).time_history = s.time_history := by
  unfold depart_customer schedule_next_departure
  cases hc : s.current_customer <;> cases hq : s.queue <;> simp [hc, hq]

theorem depart_queue_length_history (o : Oracle) (s : MM1Queue) :
    (depart_customer o s).queue_length_history = s.queue_length_history := by
  unfold depart_customer schedule_next_departure
  cases hc : s.current_customer <;> cases hq : s.queue <;> simp [hc, hq]

theorem depart_utilization_history (o : Oracle) (s : MM1Queue) :
    (depart_customer o s).utilization_history = s.utilization_history := by
  unfold depart_customer schedule_next_departure
  cases hc : s.current_customer <;> cases hq : s.queue <;> simp [hc, hq]

theorem step_time_history (o : Oracle) (s : MM1Queue) :
    (step o s).time_history = s.current_time :: s.time_history := by
  rw [step_eq]
  by_cases hev : leInfty s.next_arrival_time s.next_departure_time <;>
    simp [hev, arrive_time_history, depart_time_history, recordState_time_history]

theorem step_queue_length_history (o : Oracle) (s : MM1Queue) :
    (step o s).queue_length_history = s.queue.length :: s.queue_length_history := by
  rw [step_eq]
  by_cases hev : leInfty s.next_arrival_time s.next_departure_time <;>
    simp [hev, arrive_queue_length_history, depart_queue_length_history,
      recordState_queue_length_history]

theorem step_utilization_history (o : Oracle) (s : MM1Queue) :
    (step o s).utilization_history =
      if 0 < s.current_time then
        (if s.server_busy then
            s.server_busy_time + (s.current_time - s.last_update_time)
          else s.server_busy_time) / s.current_time :: s.utilization_history
      else s.utilization_history := by
  rw [step_eq]
  by_cases hev : leInfty s.next_arrival_time s.next_departure_time <;>
    simp [hev, arrive_utilization_history, depart_utilization_history,
      recordState_utilization_history]

/-! ### Positivity of the event clocks along a run (positive rates, positive
draws), used to show the clock is strictly positive after the first step -/

theorem arrive_rates (o : Oracle) (s : MM1Queue) :
    (arrive_customer o s).arrival_rate = s.arrival_rate ∧
      (arrive_customer o s).service_rate = s.service_rate ∧
      (arrive_customer o s).current_time = s.current_time := by
  unfold arrive_customer schedule_next_arrival schedule_next_departure
  by_cases hb : s.server_busy <;> simp [hb]

theorem depart_rates (o : Oracle) (s : MM1Queue) :
    (depart_customer o s).arrival_rate = s.arrival_rate ∧
      (depart_customer o s).service_rate = s.service_rate ∧
      (depart_customer o s).current_time = s.current_time ∧
      (depart_customer o s).next_arrival_time = s.next_arrival_time := by
  unfold depart_customer schedule_next_departure
  cases hc : s.current_customer <;> cases hq : s.queue <;> simp [hc, hq]

theorem arrive_next_arrival (o : Oracle) (s : MM1Queue) :
    ∃ i, (arrive_customer o s).next_arrival_time =
      s.current_time + expovariate s.arrival_rate (o i) := by
  unfold arrive_customer schedule_next_arrival schedule_next_departure
  by_cases hb : s.server_busy <;> simp [hb] <;> exact ⟨_, rfl⟩

theorem arrive_next_departure (o : Oracle) (s : MM1Queue) :
    (arrive_customer o s).next_departure_time = s.next_departure_time ∨
      ∃ i, (arrive_customer o s).next_departure_time =
        some (s.current_time + expovariate s.service_rate (o i)) := by
  unfold arrive_customer schedule_next_arrival schedule_next_departure
  by_cases hb : s.server_busy
  · left; simp [hb]
  · right; simp [hb]; exact ⟨_, rfl⟩

theorem depart_next_departure (o : Oracle) (s : MM1Queue) :
    (depart_customer o s).next_departure_time = none ∨
      ∃ i, (depart_customer o s).next_departure_time =
        some (s.current_time + expovariate s.service_rate (o i)) := by
  unfold depart_customer schedule_next_departure
  cases hc : s.current_customer <;> cases hq : s.queue
  · left; simp [hc, hq]
  · right; simp [hc, hq]; exact ⟨_, rfl⟩
  · left; simp [hc, hq]
  · right; simp [hc, hq]; exact ⟨_, rfl⟩

/-- The clock-positivity invariant: positive rates and strictly positive
scheduled event times. -/
def PosInv (s : MM1Queue) : Prop :=
  0 < s.arrival_rate ∧ 0 < s.service_rate ∧ 0 < s.next_arrival_time ∧
    (∀ d, s.next_departure_time = some d → 0 < d)

theorem expovariate_pos {rate u : ℚ} (hr : 0 < rate) (hu : 0 < u) :
    0 < expovariate rate u := div_pos hu hr

theorem posInv_step (o : Oracle) (s : MM1Queue) (ho : ∀ i, 0 < o i)
    (h : PosInv s) : PosInv (step o s) ∧ 0 < (step o s).current_time := by
  obtain ⟨ha, hm, harr, hdep⟩ := h
  rw [step_eq]
  by_cases hev : leInfty s.next_arrival_time s.next_departure_time
  · rw [if_pos hev]
    set s' : MM1Queue := { recordState s with current_time := s.next_arrival_time } with hs'
    have hfields : s'.arrival_rate = s.arrival_rate ∧ s'.service_rate = s.service_rate ∧
        s'.current_time = s.next_arrival_time ∧ s'.next_departure_time = s.next_departure_time := by
      refine ⟨?_, ?_, rfl, ?_⟩ <;>
        simp [hs', recordState_arrival_rate, recordState_service_rate,
          recordState_next_departure_time]
    obtain ⟨hf1, hf2, hf3, hf4⟩ := hfields
    obtain ⟨i, hi⟩ := arrive_next_arrival o s'
    obtain ⟨hr1, hr2, hr3⟩ := arrive_rates o s'
    refine ⟨⟨?_, ?_, ?_, ?_⟩, ?_⟩
    · rw [hr1, hf1]; exact ha
    · rw [hr2, hf2]; exact hm
    · rw [hi, hf3, hf1]
      have := expovariate_pos (u := o i) ha (ho i)
      linarith
    · intro d hd
      rcases arrive_next_departure o s' with hcase | ⟨j, hj⟩
      · rw [hcase, hf4] at hd; exact hdep d hd
      · rw [hj] at hd
        have := expovariate_pos (u := o j) hm (ho j)
        rw [hf3, hf2] at hd
        cases hd with
        | refl => linarith
    · rw [hr3, hf3]; exact harr
  · rw [if_neg hev]
    obtain ⟨d, hd⟩ : ∃ d, s.next_departure_time = some d := by
      cases hdn : s.next_departure_time
      · exact absurd (by simp [leInfty, hdn]) hev
      · exact ⟨_, rfl⟩
    have hdpos : 0 < d := hdep d hd
    set s' : MM1Queue := { recordState s with current_time := (s.next_departure_time).getD 0 } with hs'
    have hf1 : s'.arrival_rate = s.arrival_rate := by simp [hs', recordState_arrival_rate]
    have hf2 : s'.service_rate = s.service_rate := by simp [hs', recordState_service_rate]
    have hf3 : s'.current_time = d := by simp [hs', hd]
    have hf5 : s'.next_arrival_time = s.next_arrival_time := by
      simp [hs', recordState_next_arrival_time]
    obtain ⟨hr1, hr2, hr3, hr4⟩ := depart_rates o s'
    refine ⟨⟨?_, ?_, ?_, ?_⟩, ?_⟩
    · rw [hr1, hf1]; exact ha
    · rw [hr2, hf2]; exact hm
    · rw [hr4, hf5]; exact harr
    · intro e he
      rcases depart_next_departure o s' with hcase | ⟨j, hj⟩
      · rw [hcase] at he; exact absurd he (by simp)
      · rw [hj] at he
        have := expovariate_pos (u := o j) hm (ho j)
        rw [hf3, hf2] at he
        cases he with
        | refl => linarith
    · rw [hr3, hf3]; exact hdpos

theorem posInv_init (a m : ℚ) (o : Oracle) (ha : 0 < a) (hm : 0 < m)
    (ho : ∀ i, 0 < o i) : PosInv (MM1Queue.init a m o) := by
  unfold MM1Queue.init schedule_next_arrival
  refine ⟨by simpa using ha, by simpa using hm, ?_, ?_⟩
  · simpa using expovariate_pos (u := o 0) ha (ho 0)
  · intro d hd
    simp at hd

/-- Along a run started at a strictly positive clock, every step appends to
all three history buffers. -/
theorem hist_lengths_of_pos (o : Oracle) (ho : ∀ i, 0 < o i) (n : Nat)
    (s : MM1Queue) (h : PosInv s) (ht : 0 < s.current_time) :
    (runSteps o n s).time_history.length = n + s.time_history.length ∧
      (runSteps o n s).queue_length_history.length = n + s.queue_length_history.length ∧
      (runSteps o n s).utilization_history.length = n + s.utilization_history.length := by
  induction n generalizing s with
  | zero => simp [runSteps]
  | succ n ih =>
    obtain ⟨h', ht'⟩ := posInv_step o s ho h
    obtain ⟨i1, i2, i3⟩ := ih (step o s) h' ht'
    refine ⟨?_, ?_, ?_⟩
    · rw [show runSteps o (n+1) s = runSteps o n (step o s) from rfl, i1,
        step_time_history]
      simp; omega
    · rw [show runSteps o (n+1) s = runSteps o n (step o s) from rfl, i2,
        step_queue_length_history]
      simp; omega
    · rw [show runSteps o (n+1) s = runSteps o n (step o s) from rfl, i3,
        step_utilization_history, if_pos ht]
      simp; omega

/-! ### Event-handler effects on the customer counters -/

theorem arrive_counts (o : Oracle) (s : MM1Queue) :
    (arrive_customer o s).total_customers = s.total_customers + 1 ∧
      (arrive_customer o s).customers_served = s.customers_served := by
  unfold arrive_customer schedule_next_arrival schedule_next_departure
  by_cases hb : s.server_busy <;> simp [hb]

theorem depart_total (o : Oracle) (s : MM1Queue) :
    (depart_customer o s).total_customers = s.total_customers := by
  unfold depart_customer schedule_next_departure
  cases hc : s.current_customer <;> cases hq : s.queue <;> simp [hc, hq]

/-- A concrete random source whose standard-exponential samples are all `1`. -/
def onesOracle : Oracle := fun _ => 1

/-! ### Claims C1–C4, C9, C10 -/

/-- C1 (amended): the history entries recorded by `step` are for the
pre-advance time point — `time_history` receives the previous event time (the
`current_time` before the advance), `queue_length_history` the pre-event queue
length, and a running-utilization entry (updated busy time over pre-advance
`current_time`) is appended only when the pre-advance `current_time > 0`. -/
theorem claim_C1 (o : Oracle) (s : MM1Queue) :
    (step o s).time_history = s.current_time :: s.time_history ∧
    (step o s).queue_length_history = s.queue.length :: s.queue_length_history ∧
    (step o s).utilization_history =
      (if 0 < s.current_time then
        (if s.server_busy then
            s.server_busy_time + (s.current_time - s.last_update_time)
          else s.server_busy_time) / s.current_time :: s.utilization_history
      else s.utilization_history) :=
  ⟨step_time_history o s, step_queue_length_history o s, step_utilization_history o s⟩

/-- C1 counterexample: on the first step of `MM1Queue(1, 1)` with unit draws,
the clock advances to `1`, yet `time_history` receives the pre-advance time
`0` and no utilization entry is appended even though the advanced time is
positive. -/
theorem claim_C1_counterexample :
    (step onesOracle (MM1Queue.init 1 1 onesOracle)).current_time = 1 ∧
    (step onesOracle (MM1Queue.init 1 1 onesOracle)).time_history = [0] ∧
    (step onesOracle (MM1Queue.init 1 1 onesOracle)).utilization_history = [] ∧
    (0 : ℚ) ≠ 1 := by
  with_unfolding_all decide

/-- C2: when the next arrival and next departure are scheduled at exactly the
same time, `step` processes the arrival (total customers grows, nobody is
served); when the departure is strictly earlier, the departure is processed
(total customers unchanged). -/
theorem claim_C2 (o : Oracle) (s : MM1Queue) (d : ℚ)
    (hd : s.next_departure_time = some d) :
    (s.next_arrival_time ≤ d →
      (step o s).total_customers = s.total_customers + 1 ∧
        (step o s).customers_served = s.customers_served) ∧
    (d < s.next_arrival_time →
      (step o s).total_customers = s.total_customers) := by
  constructor
  · intro hle
    have hev : leInfty s.next_arrival_time s.next_departure_time = true := by
      simp [leInfty, hd, hle]
    rw [step_eq, if_pos hev]
    obtain ⟨t1, t2⟩ := arrive_counts o _
    rw [t1, t2]
    constructor <;> simp [recordState_total_customers, recordState_customers_served]
  · intro hlt
    have hev : leInfty s.next_arrival_time s.next_departure_time = false := by
      simp [leInfty, hd]
      exact hlt
    rw [step_eq, if_neg (by simp [hev]), depart_total]
    simp [recordState_total_customers]

/-- C2 witness: after one step of `MM1Queue(1, 1)` with unit draws, the next
arrival and next departure are both scheduled at time `2`, and the tie is
resolved as an arrival. -/
theorem claim_C2_witness :
    (step onesOracle (MM1Queue.init 1 1 onesOracle)).next_departure_time = some 2 ∧
    (step onesOracle (step onesOracle (MM1Queue.init 1 1 onesOracle))).total_customers =
      (step onesOracle (MM1Queue.init 1 1 onesOracle)).total_customers + 1 :=
  ⟨by with_unfolding_all decide,
   ((claim_C2 onesOracle _ 2 (by with_unfolding_all decide)).1
      (by with_unfolding_all decide)).1⟩

/-- C3: in every state reachable from construction by `step` calls, the idle
conditions are equivalent: the server is idle iff there is no customer in
service iff the next departure time is `+∞`. -/
theorem claim_C3 (a m : ℚ) (o : Oracle) (n : Nat) :
    ((runSteps o n (MM1Queue.init a m o)).server_busy = false ↔
      (runSteps o n (MM1Queue.init a m o)).current_customer = none) ∧
    ((runSteps o n (MM1Queue.init a m o)).current_customer = none ↔
      (runSteps o n (MM1Queue.init a m o)).next_departure_time = none) := by
  obtain ⟨h1, h2, -, -⟩ := engineInv_reachable a m o n
  exact ⟨h1, h1.symm.trans h2⟩

/-- C4 (amended): after `n` steps, `queue_length_history` and `time_history`
have length `n`, but `utilization_history` has length `n - 1`: the first step
runs at `current_time = 0` and records no utilization entry (assuming positive
rates and positive exponential draws, so that the clock is strictly positive
from the first event on). -/
theorem claim_C4 (a m : ℚ) (o : Oracle) (n : Nat) (ha : 0 < a) (hm : 0 < m)
    (ho : ∀ i, 0 < o i) :
    (runSteps o n (MM1Queue.init a m o)).time_history.length = n ∧
    (runSteps o n (MM1Queue.init a m o)).queue_length_history.length = n ∧
    (runSteps o n (MM1Queue.init a m o)).utilization_history.length = n - 1 := by
  cases n with
  | zero => simp [runSteps, MM1Queue.init, schedule_next_arrival]
  | succ k =>
    have h0 : PosInv (MM1Queue.init a m o) := posInv_init a m o ha hm ho
    obtain ⟨h1, ht1⟩ := posInv_step o _ ho h0
    obtain ⟨l1, l2, l3⟩ := hist_lengths_of_pos o ho k _ h1 ht1
    have base : runSteps o (k+1) (MM1Queue.init a m o) =
        runSteps o k (step o (MM1Queue.init a m o)) := rfl
    have s1t : (step o (MM1Queue.init a m o)).time_history.length = 1 := by
      rw [step_time_history]; simp [MM1Queue.init, schedule_next_arrival]
    have s1q : (step o (MM1Queue.init a m o)).queue_length_history.length = 1 := by
      rw [step_queue_length_history]; simp [MM1Queue.init, schedule_next_arrival]
    have s1u : (step o (MM1Queue.init a m o)).utilization_history.length = 0 := by
      rw [step_utilization_history]
      have hz : (MM1Queue.init a m o).current_time = 0 := rfl
      rw [hz, if_neg (by norm_num)]
      simp [MM1Queue.init, schedule_next_arrival]
    refine ⟨?_, ?_, ?_⟩
    · rw [base, l1, s1t]
    · rw [base, l2, s1q]
    · rw [base, l3, s1u]; omega

/-- C4 counterexample: after exactly one step of `MM1Queue(2, 3)` with unit
draws, `time_history` holds one entry but `utilization_history` is still
empty — its length is `0`, not the number of steps. -/
theorem claim_C4_counterexample :
    (runSteps onesOracle 1 (MM1Queue.init 2 3 onesOracle)).time_history.length = 1 ∧
    (runSteps onesOracle 1 (MM1Queue.init 2 3 onesOracle)).utilization_history.length = 0 ∧
    (0 : Nat) ≠ 1 := by
  with_unfolding_all decide

/-- C4 witness: the amended length formula at `MM1Queue(2, 3)`, unit draws,
three steps. -/
theorem claim_C4_witness :
    (runSteps onesOracle 3 (MM1Queue.init 2 3 onesOracle)).time_history.length = 3 ∧
    (runSteps onesOracle 3 (MM1Queue.init 2 3 onesOracle)).queue_length_history.length = 3 ∧
    (runSteps onesOracle 3 (MM1Queue.init 2 3 onesOracle)).utilization_history.length = 3 - 1 :=
  claim_C4 2 3 onesOracle 3 (by norm_num) (by norm_num)
    (fun i => by norm_num [onesOracle])

/-- C9: conservation of customers in every reachable state — every arrival is
either already served, waiting in line, or in service. -/
theorem claim_C9 (a m : ℚ) (o : Oracle) (n : Nat) :
    (runSteps o n (MM1Queue.init a m o)).total_customers =
      (runSteps o n (MM1Queue.init a m o)).customers_served +
      (runSteps o n (MM1Queue.init a m o)).queue.length +
      (if (runSteps o n (MM1Queue.init a m o)).server_busy then 1 else 0) :=
  (engineInv_reachable a m o n).2.2.1

/-- C10: at construction the next departure is `+∞` while an arrival is
scheduled, so the first `step` always processes an arrival — after it, one
customer has entered and none has been served. -/
theorem claim_C10 (a m : ℚ) (o : Oracle) :
    (MM1Queue.init a m o).next_departure_time = none ∧
    (step o (MM1Queue.init a m o)).total_customers = 1 ∧
    (step o (MM1Queue.init a m o)).customers_served = 0 := by
  have hev : leInfty (MM1Queue.init a m o).next_arrival_time
      (MM1Queue.init a m o).next_departure_time = true := rfl
  refine ⟨rfl, ?_, ?_⟩
  · rw [step_eq, if_pos hev, (arrive_counts o _).1]
    simp [recordState_total_customers, MM1Queue.init, schedule_next_arrival]
  · rw [step_eq, if_pos hev, (arrive_counts o _).2]
    simp [recordState_customers_served, MM1Queue.init, schedule_next_arrival]

/-- C6 (amended): construction performs no rate validation — an engine
instance is produced for every pair of rates with `arrival_rate ≠ 0`
(including negative rates and non-positive service rates); only
`arrival_rate = 0` fails, with a `ZeroDivisionError` escaping from the
exponential sampler, not a validation error. -/
theorem claim_C6 (a m : ℚ) (o : Oracle) :
    (a ≠ 0 → construct a m o = .ok (MM1Queue.init a m o)) ∧
    (a = 0 → construct a m o = .zeroDivisionError) := by
  unfold construct
  constructor
  · intro h; rw [if_neg h]
  · intro h; rw [if_pos h]

/-- C6 counterexample: constructing with the non-positive rates
`arrival_rate = -1`, `service_rate = -1` is not rejected — it produces an
engine instance. -/
theorem claim_C6_counterexample :
    construct (-1) (-1) onesOracle = .ok (MM1Queue.init (-1) (-1) onesOracle) := by
  with_unfolding_all decide

/-- C6 witness: a negative arrival rate yields an instance, a zero arrival
rate yields the division error. -/
theorem claim_C6_witness :
    construct (-1) (-1) onesOracle = .ok (MM1Queue.init (-1) (-1) onesOracle) ∧
    construct 0 1 onesOracle = .zeroDivisionError :=
  ⟨(claim_C6 (-1) (-1) onesOracle).1 (by norm_num),
   (claim_C6 0 1 onesOracle).2 rfl⟩

/-! ### Controller lemmas -/

theorem arrival_only_bounds (opt : UtilizationOptimizer) (q : MM1Queue)
    (ru cr : ℚ) (hmax : opt.max_arrival_rate = 10) (hadj : 0 ≤ opt.adjustment_rate)
    (hlo : 1/10 ≤ q.arrival_rate) (hhi : q.arrival_rate ≤ 10) :
    1/10 ≤ (optimize_arrival_rate_only opt q ru cr).arrival_rate ∧
      (optimize_arrival_rate_only opt q ru cr).arrival_rate ≤ 10 := by
  simp only [optimize_arrival_rate_only]
  split_ifs with h1 h2
  · refine ⟨le_min (by rw [hmax]; norm_num) (by linarith), ?_⟩
    calc min opt.max_arrival_rate (q.arrival_rate + opt.adjustment_rate)
        ≤ opt.max_arrival_rate := min_le_left _ _
      _ = 10 := hmax
  · exact ⟨le_max_left _ _, max_le (by norm_num) (by linarith)⟩
  · exact ⟨hlo, hhi⟩

theorem service_only_lower (opt : UtilizationOptimizer) (q : MM1Queue)
    (ru cr : ℚ) (hmin : opt.min_service_rate = 1/2) (hadj : 0 ≤ opt.adjustment_rate)
    (h : 1/2 ≤ q.service_rate) :
    1/2 ≤ (optimize_service_rate_only opt q ru cr).service_rate := by
  simp only [optimize_service_rate_only]
  split_ifs with h1 h2
  · calc (1/2 : ℚ) = opt.min_service_rate := hmin.symm
      _ ≤ _ := le_max_left _ _
  · linarith
  · exact h

theorem optimize_step_of_arrival (opt : UtilizationOptimizer) (q : MM1Queue)
    (hs : opt.strategy = "arrival_rate") :
    optimize_step opt q = (opt, q) ∨
      ∃ ru cr, optimize_step opt q = (opt, optimize_arrival_rate_only opt q ru cr) := by
  unfold optimize_step
  cases he : opt.optimization_enabled
  · left; simp [he]
  · by_cases hw : q.utilization_history.length < opt.measurement_window
    · left; simp [he, hw]
    · right
      refine ⟨(q.utilization_history.take opt.measurement_window).sum /
          (opt.measurement_window : ℚ), q.arrival_rate / q.service_rate, ?_⟩
      simp [he, hw, hs]

theorem optimize_step_of_service (opt : UtilizationOptimizer) (q : MM1Queue)
    (hs : opt.strategy = "service_rate") :
    optimize_step opt q = (opt, q) ∨
      ∃ ru cr, optimize_step opt q = (opt, optimize_service_rate_only opt q ru cr) := by
  unfold optimize_step
  cases he : opt.optimization_enabled
  · left; simp [he]
  · by_cases hw : q.utilization_history.length < opt.measurement_window
    · left; simp [he, hw]
    · right
      refine ⟨(q.utilization_history.take opt.measurement_window).sum /
          (opt.measurement_window : ℚ), q.arrival_rate / q.service_rate, ?_⟩
      simp [he, hw, hs]

/-- C8: an `optimize_step` under the arrival-only strategy keeps
`arrival_rate` inside `[0.1, 10.0]`, and under the service-only strategy keeps
`service_rate ≥ 0.5` (with the constructed bounds `max_arrival_rate = 10`,
`min_service_rate = 1/2` and a non-negative adjustment step). -/
theorem claim_C8 (opt : UtilizationOptimizer) (q : MM1Queue)
    (hadj : 0 ≤ opt.adjustment_rate) :
    (opt.strategy = "arrival_rate" → opt.max_arrival_rate = 10 →
      1/10 ≤ q.arrival_rate → q.arrival_rate ≤ 10 →
      1/10 ≤ (optimize_step opt q).2.arrival_rate ∧
        (optimize_step opt q).2.arrival_rate ≤ 10) ∧
    (opt.strategy = "service_rate" → opt.min_service_rate = 1/2 →
      1/2 ≤ q.service_rate → 1/2 ≤ (optimize_step opt q).2.service_rate) := by
  constructor
  · intro hs hmax hlo hhi
    rcases optimize_step_of_arrival opt q hs with h | ⟨ru, cr, h⟩
    · rw [h]; exact ⟨hlo, hhi⟩
    · rw [h]; exact arrival_only_bounds opt q ru cr hmax hadj hlo hhi
  · intro hs hmin h
    rcases optimize_step_of_service opt q hs with hh | ⟨ru, cr, hh⟩
    · rw [hh]; exact h
    · rw [hh]; exact service_only_lower opt q ru cr hmin hadj h

/-- A controller as configured for the arrival-only strategy with optimization
switched on. -/
def optArr : UtilizationOptimizer :=
  { UtilizationOptimizer.init 1 with optimization_enabled := true }

/-- A controller as configured for the service-only strategy with optimization
switched on. -/
def optSrv : UtilizationOptimizer :=
  { UtilizationOptimizer.init 1 with optimization_enabled := true, strategy := "service_rate" }

/-- An engine state with a full measurement window of utilization samples. -/
def qFull : MM1Queue :=
  { MM1Queue.init 2 3 onesOracle with utilization_history := List.replicate 100 0 }

/-- C8 witness: both bound statements instantiated at concrete controllers on
an engine with a full measurement window. -/
theorem claim_C8_witness :
    (1/10 ≤ (optimize_step optArr qFull).2.arrival_rate ∧
      (optimize_step optArr qFull).2.arrival_rate ≤ 10) ∧
    1/2 ≤ (optimize_step optSrv qFull).2.service_rate :=
  ⟨(claim_C8 optArr qFull (by norm_num [optArr, UtilizationOptimizer.init])).1
      rfl rfl (by norm_num [qFull, MM1Queue.init, schedule_next_arrival])
      (by norm_num [qFull, MM1Queue.init, schedule_next_arrival]),
   (claim_C8 optSrv qFull (by norm_num [optSrv, UtilizationOptimizer.init])).2
      rfl rfl (by norm_num [qFull, MM1Queue.init, schedule_next_arrival])⟩

theorem optimize_step_of_demo (opt : UtilizationOptimizer) (q : MM1Queue)
    (hs : opt.strategy = "demonstrate_instability")
    (he : opt.optimization_enabled = true)
    (hw : opt.measurement_window ≤ q.utilization_history.length) :
    optimize_step opt q =
      demonstrate_instability opt q
        ((q.utilization_history.take opt.measurement_window).sum /
          (opt.measurement_window : ℚ))
        (q.arrival_rate / q.service_rate) := by
  have hw' : ¬ q.utilization_history.length < opt.measurement_window := by omega
  simp [optimize_step, he, hw', hs]

theorem demonstrate_instability_fields (opt : UtilizationOptimizer)
    (q : MM1Queue) (ru cr : ℚ) :
    (demonstrate_instability opt q ru cr).1.demonstration_phase =
        phaseStep opt.demonstration_phase ∧
      (demonstrate_instability opt q ru cr).1.strategy = opt.strategy ∧
      (demonstrate_instability opt q ru cr).1.optimization_enabled =
        opt.optimization_enabled ∧
      (demonstrate_instability opt q ru cr).1.measurement_window =
        opt.measurement_window ∧
      (demonstrate_instability opt q ru cr).2.utilization_history =
        q.utilization_history ∧
      (demonstrate_instability opt q ru cr).2.arrival_rate =
        (if opt.demonstration_phase + 1 < 200 then
          (if cr < 6/5 then q.arrival_rate + 1/200 else q.arrival_rate)
        else if opt.demonstration_phase + 1 < 400 then
          (if 4/5 < cr then q.arrival_rate - 1/100 else q.arrival_rate)
        else q.arrival_rate) := by
  unfold demonstrate_instability phaseStep
  by_cases h1 : opt.demonstration_phase + 1 < 200
  · have h2 : opt.demonstration_phase + 1 < 400 := by omega
    by_cases h3 : cr < 6/5 <;> simp [h1, h2, h3]
  · by_cases h2 : opt.demonstration_phase + 1 < 400
    · by_cases h3 : (4:ℚ)/5 < cr <;> simp [h1, h2, h3]
    · simp [h1, h2]

theorem optimize_phase (opt : UtilizationOptimizer) (q : MM1Queue)
    (hs : opt.strategy = "demonstrate_instability")
    (he : opt.optimization_enabled = true)
    (hw : opt.measurement_window ≤ q.utilization_history.length) :
    (optimize_step opt q).1.demonstration_phase = phaseStep opt.demonstration_phase ∧
    (optimize_step opt q).1.strategy = opt.strategy ∧
    (optimize_step opt q).1.optimization_enabled = true ∧
    (optimize_step opt q).1.measurement_window = opt.measurement_window ∧
    (optimize_step opt q).2.utilization_history = q.utilization_history := by
  rw [optimize_step_of_demo opt q hs he hw]
  obtain ⟨f1, f2, f3, f4, f5, -⟩ := demonstrate_instability_fields opt q
    ((q.utilization_history.take opt.measurement_window).sum /
      (opt.measurement_window : ℚ))
    (q.arrival_rate / q.service_rate)
  exact ⟨f1, f2, f3.trans he, f4, f5⟩

theorem optIter_phase (n : Nat) (opt : UtilizationOptimizer) (q : MM1Queue)
    (hs : opt.strategy = "demonstrate_instability")
    (he : opt.optimization_enabled = true)
    (hw : opt.measurement_window ≤ q.utilization_history.length) :
    (optIter n (opt, q)).1.demonstration_phase = phaseIter n opt.demonstration_phase := by
  induction n generalizing opt q with
  | zero => rfl
  | succ n ih =>
    obtain ⟨hp, h1, h2, h3, h4⟩ := optimize_phase opt q hs he hw
    have hpair : optIter (n+1) (opt, q) =
        optIter n ((optimize_step opt q).1, (optimize_step opt q).2) := rfl
    rw [hpair, ih _ _ (h1.trans hs) h2 (by rw [h3, h4]; exact hw), hp]
    rfl

theorem phaseIter_add (a b p : Nat) :
    phaseIter (a + b) p = phaseIter b (phaseIter a p) := by
  induction a generalizing p with
  | zero => rw [Nat.zero_add]; rfl
  | succ a ih =>
    have h : a + 1 + b = (a + b) + 1 := by omega
    rw [h]
    show phaseIter (a + b) (phaseStep p) = phaseIter b (phaseIter a (phaseStep p))
    exact ih (phaseStep p)

theorem phaseIter_le (n p : Nat) (h : p + n ≤ 399) : phaseIter n p = p + n := by
  induction n generalizing p with
  | zero => rfl
  | succ n ih =>
    have hp : phaseStep p = p + 1 := by unfold phaseStep; rw [if_pos (by omega)]
    show phaseIter n (phaseStep p) = p + (n + 1)
    rw [hp, ih (p + 1) (by omega)]
    omega

theorem phase_cycle : phaseIter 400 0 = 0 := by
  have h399 : phaseIter 399 0 = 399 := phaseIter_le 399 0 (by omega)
  have h400 : (400 : Nat) = 399 + 1 := rfl
  rw [h400, phaseIter_add 399 1 0, h399]
  show phaseStep 399 = 0
  unfold phaseStep
  rw [if_neg (by omega)]

/-- C5 (amended): each enabled, full-window `optimize_step` call under the
demonstrate-instability strategy increments the phase counter, with values
whose post-increment value lies in 1–199 increasing `λ` by `0.005` while
`ρ < 1.2`, values in 200–399 decreasing `λ` by `0.01` while `ρ > 0.8`, and the
value 400 resetting the counter to 0 — so the cycle has period 400 calls, and
starting from phase 0 the counter returns to 0 after exactly 400 calls. -/
theorem claim_C5 (opt : UtilizationOptimizer) (q : MM1Queue)
    (hs : opt.strategy = "demonstrate_instability")
    (he : opt.optimization_enabled = true)
    (hw : opt.measurement_window ≤ q.utilization_history.length) :
    (optimize_step opt q).1.demonstration_phase =
      (if opt.demonstration_phase + 1 < 400 then opt.demonstration_phase + 1 else 0) ∧
    (optimize_step opt q).2.arrival_rate =
      (if opt.demonstration_phase + 1 < 200 then
        (if q.arrival_rate / q.service_rate < 6/5 then q.arrival_rate + 1/200
          else q.arrival_rate)
      else if opt.demonstration_phase + 1 < 400 then
        (if 4/5 < q.arrival_rate / q.service_rate then q.arrival_rate - 1/100
          else q.arrival_rate)
      else q.arrival_rate) ∧
    (opt.demonstration_phase = 0 →
      (optIter 400 (opt, q)).1.demonstration_phase = 0) := by
  refine ⟨?_, ?_, ?_⟩
  · rw [(optimize_phase opt q hs he hw).1]
    unfold phaseStep
    rfl
  · rw [optimize_step_of_demo opt q hs he hw]
    exact (demonstrate_instability_fields opt q _ _).2.2.2.2.2
  · intro h0
    rw [optIter_phase 400 opt q hs he hw, h0]
    exact phase_cycle

/-! ### The shape of one step in the two standard cases, used to follow a
concrete long run without deep kernel evaluation -/

theorem step_arrival_busy (o : Oracle) (s : MM1Queue) (hb : s.server_busy = true)
    (d : ℚ) (hd : s.next_departure_time = some d) (hle : s.next_arrival_time ≤ d) :
    (step o s).arrival_rate = s.arrival_rate ∧
    (step o s).service_rate = s.service_rate ∧
    (step o s).queue = s.queue ++
      [{ id := s.next_customer_id, arrival_time := s.next_arrival_time,
         service_time := 0 }] ∧
    (step o s).server_busy = true ∧
    (step o s).current_time = s.next_arrival_time ∧
    (step o s).next_arrival_time =
      s.next_arrival_time + expovariate s.arrival_rate (o s.rng) ∧
    (step o s).next_departure_time = s.next_departure_time ∧
    (step o s).current_customer = s.current_customer ∧
    (step o s).customers_served = s.customers_served ∧
    (step o s).completed_customers = s.completed_customers ∧
    (step o s).next_customer_id = s.next_customer_id + 1 := by
  have hev : leInfty s.next_arrival_time s.next_departure_time = true := by
    simp [leInfty, hd, hle]
  rw [step_eq, if_pos hev]
  have hb' : ({ recordState s with current_time := s.next_arrival_time } :
      MM1Queue).server_busy = true := by
    simpa [recordState_server_busy] using hb
  refine ⟨?_, ?_, ?_, ?_, ?_, ?_, ?_, ?_, ?_, ?_, ?_⟩ <;>
    simp [arrive_customer, schedule_next_arrival, schedule_next_departure, hb',
      recordState_arrival_rate, recordState_service_rate, recordState_queue,
      recordState_server_busy, recordState_next_departure_time,
      recordState_current_customer, recordState_customers_served,
      recordState_completed_customers, recordState_next_customer_id,
      recordState_rng, hb]

theorem step_departure_pop (o : Oracle) (s : MM1Queue) (c x : Customer)
    (rest : List Customer) (d : ℚ) (hc : s.current_customer = some c)
    (hq : s.queue = x :: rest) (hd : s.next_departure_time = some d)
    (hlt : d < s.next_arrival_time) :
    (step o s).arrival_rate = s.arrival_rate ∧
    (step o s).service_rate = s.service_rate ∧
    (step o s).queue = rest ∧
    (step o s).server_busy = s.server_busy ∧
    (step o s).current_time = d ∧
    (step o s).next_arrival_time = s.next_arrival_time ∧
    (step o s).next_departure_time =
      some (d + expovariate s.service_rate (o s.rng)) ∧
    (step o s).current_customer =
      some { x with service_time := expovariate s.service_rate (o s.rng),
                    start_service_time := some d } ∧
    (step o s).customers_served = s.customers_served + 1 ∧
    (step o s).completed_customers =
      (if 1000 < ({ c with departure_time := some d } :: s.completed_customers).length
        then ({ c with departure_time := some d } :: s.completed_customers).take 500
        else { c with departure_time := some d } :: s.completed_customers) ∧
    (step o s).next_customer_id = s.next_customer_id := by
  have hev : leInfty s.next_arrival_time s.next_departure_time = false := by
    simp [leInfty, hd]
    exact hlt
  rw [step_eq, if_neg (by simp [hev])]
  refine ⟨?_, ?_, ?_, ?_, ?_, ?_, ?_, ?_, ?_, ?_, ?_⟩ <;>
    simp [depart_customer, schedule_next_departure, hc, hq, hd,
      recordState_arrival_rate, recordState_service_rate, recordState_queue,
      recordState_server_busy, recordState_next_arrival_time,
      recordState_next_departure_time, recordState_current_customer,
      recordState_customers_served, recordState_completed_customers,
      recordState_next_customer_id, recordState_rng]

/-! ### A concrete run of `MM1Queue(1, 1)` with unit draws: customer `j`
arrives at time `j`, starts service at `j` and departs at `j + 1` -/

/-- The `j`-th completed customer of the unit-draw run. -/
def cust (j : Nat) : Customer :=
  { id := j, arrival_time := (j : ℚ), service_time := 1,
    start_service_time := some (j : ℚ), departure_time := some ((j : ℚ) + 1) }

/-- The customer in service while `k` have been served in the unit-draw run. -/
def servingCust (j : Nat) : Customer :=
  { id := j, arrival_time := (j : ℚ), service_time := 1,
    start_service_time := some (j : ℚ), departure_time := none }

/-- The completed-customer log after `k` departures of the unit-draw run,
folding in the trim exactly as `depart_customer` performs it. -/
def compLog : Nat → List Customer
  | 0 => []
  | k + 1 =>
    let l := cust (k + 1) :: compLog k
    if 1000 < l.length then l.take 500 else l

/-- The state of the unit-draw run right after its `k`-th departure (step
`2k + 1`): the fields that drive the dynamics and the completed log. -/
def CycleInv (k : Nat) (s : MM1Queue) : Prop :=
  s.arrival_rate = 1 ∧ s.service_rate = 1 ∧ s.queue = [] ∧
  s.server_busy = true ∧ s.current_time = (k : ℚ) + 1 ∧
  s.next_arrival_time = (k : ℚ) + 2 ∧
  s.next_departure_time = some ((k : ℚ) + 2) ∧
  s.current_customer = some (servingCust (k + 1)) ∧
  s.customers_served = k ∧ s.completed_customers = compLog k ∧
  s.next_customer_id = k + 2

theorem expovariate_ones (i : Nat) : expovariate 1 (onesOracle i) = 1 := by
  norm_num [expovariate, onesOracle]

theorem cycle_step (k : Nat) (s : MM1Queue) (h : CycleInv k s) :
    CycleInv (k + 1) (step onesOracle (step onesOracle s)) := by
  obtain ⟨ha, hm, hq, hb, ht, harr, hdep, hcc, hsv, hcl, hid⟩ := h
  obtain ⟨a1, a2, a3, a4, a5, a6, a7, a8, a9, a10, a11⟩ :=
    step_arrival_busy onesOracle s hb ((k : ℚ) + 2) hdep (le_of_eq harr)
  set s1 := step onesOracle s with hs1
  have h1arr : s1.next_arrival_time = (k : ℚ) + 3 := by
    rw [a6, harr, ha, expovariate_ones]
    ring
  have h1q : s1.queue = [({ id := k + 2, arrival_time := (k : ℚ) + 2, service_time := 0 } : Customer)] := by
    rw [a3, hq, hid, harr]
    simp
  obtain ⟨b1, b2, b3, b4, b5, b6, b7, b8, b9, b10, b11⟩ :=
    step_departure_pop onesOracle s1 (servingCust (k + 1))
      ({ id := k + 2, arrival_time := (k : ℚ) + 2, service_time := 0 } : Customer) []
      ((k : ℚ) + 2) (by rw [a8, hcc]) h1q (by rw [a7, hdep])
      (by rw [h1arr]; linarith)
  have hsrv1 : s1.service_rate = 1 := by rw [a2, hm]
  refine ⟨?_, ?_, ?_, ?_, ?_, ?_, ?_, ?_, ?_, ?_, ?_⟩
  · rw [b1, a1, ha]
  · rw [b2, a2, hm]
  · exact b3
  · rw [b4, a4]
  · rw [b5]; push_cast; ring
  · rw [b6, h1arr]; push_cast; ring
  · rw [b7, hsrv1, expovariate_ones]
    have hcast : (k : ℚ) + 2 + 1 = ((k + 1 : Nat) : ℚ) + 2 := by push_cast; ring
    rw [hcast]
  · rw [b8, hsrv1, expovariate_ones]
    have hcast : ((k : ℚ) + 2) = ((k + 2 : Nat) : ℚ) := by push_cast; ring
    unfold servingCust
    rw [hcast]
  · rw [b9, a9, hsv]
  · rw [b10, a10, hcl]
    have hce : ({ servingCust (k + 1) with departure_time := some ((k : ℚ) + 2) } :
        Customer) = cust (k + 1) := by
      have hcast : ((k : ℚ) + 2) = ((k + 1 : Nat) : ℚ) + 1 := by push_cast; ring
      unfold servingCust cust
      rw [hcast]
    rw [hce]
    rfl
  · rw [b11, a11, hid]

theorem runSteps_succ (o : Oracle) (n : Nat) (s : MM1Queue) :
    runSteps o (n + 1) s = step o (runSteps o n s) := by
  induction n generalizing s with
  | zero => rfl
  | succ n ih =>
    show runSteps o (n + 1) (step o s) = step o (runSteps o (n + 1) s)
    rw [ih (step o s)]
    rfl

theorem cycleInv_at (k : Nat) :
    CycleInv (k + 1) (runSteps onesOracle (2 * k + 3) (MM1Queue.init 1 1 onesOracle)) := by
  induction k with
  | zero =>
    unfold CycleInv
    with_unfolding_all decide
  | succ k ih =>
    have harith : 2 * (k + 1) + 3 = (2 * k + 3) + 1 + 1 := by omega
    rw [harith, runSteps_succ, runSteps_succ]
    exact cycle_step (k + 1) _ ih

theorem compLog_eq_of_le (k : Nat) (h : k ≤ 1000) :
    compLog k = (List.range k).reverse.map (fun j => cust (j + 1)) := by
  induction k with
  | zero => rfl
  | succ k ih =>
    have hk : k ≤ 1000 := by omega
    have hlen : (compLog k).length = k := by rw [ih hk]; simp
    show (if 1000 < (cust (k + 1) :: compLog k).length then
        (cust (k + 1) :: compLog k).take 500 else cust (k + 1) :: compLog k) = _
    rw [if_neg (by simp [hlen]; omega), ih hk]
    simp [List.range_succ]

theorem compLog_1001 :
    compLog 1001 =
      ((List.range 1001).reverse.map (fun j => cust (j + 1))).take 500 := by
  have h1000 := compLog_eq_of_le 1000 (le_refl _)
  have hlen : (compLog 1000).length = 1000 := by rw [h1000]; simp
  show (if 1000 < (cust 1001 :: compLog 1000).length then
      (cust 1001 :: compLog 1000).take 500 else cust 1001 :: compLog 1000) = _
  rw [if_pos (by simp [hlen]), h1000]
  have hr : (List.range 1001).reverse = 1000 :: (List.range 1000).reverse := by
    rw [List.range_succ]
    simp
  rw [hr]
  rfl

theorem sum_service_map (l : List Nat) :
    ((l.map (fun j => cust (j + 1))).map Customer.service_time).sum = (l.length : ℚ) := by
  induction l with
  | nil => simp
  | cons a l ih =>
    simp only [List.map_cons, List.sum_cons, List.length_cons]
    rw [ih]
    have hone : Customer.service_time (cust (a + 1)) = 1 := rfl
    rw [hone]
    push_cast
    ring

theorem compLog_1001_len : (compLog 1001).length = 500 := by
  rw [compLog_1001]
  simp

theorem compLog_1001_sum :
    ((compLog 1001).map Customer.service_time).sum = 500 := by
  rw [compLog_1001, ← List.map_take, sum_service_map]
  simp

/-- C7 (amended): the time breakdown is the not-available marker exactly when
fewer than 5 customers have been served; otherwise its `avg_service_time`
equals the sum of `service_time` over the entries currently in the
completed-customer log divided by `customers_served` — which coincides with
the arithmetic mean over the log entries only while the log is untrimmed
(`customers_served ≤ 1000`). -/
theorem claim_C7 (a m : ℚ) (o : Oracle) (n : Nat) :
    (get_time_breakdown (runSteps o n (MM1Queue.init a m o)) = none ↔
      (runSteps o n (MM1Queue.init a m o)).customers_served < 5) ∧
    (∀ tb, get_time_breakdown (runSteps o n (MM1Queue.init a m o)) = some tb →
      tb.avg_service_time =
        ((runSteps o n (MM1Queue.init a m o)).completed_customers.map
            Customer.service_time).sum /
          ((runSteps o n (MM1Queue.init a m o)).customers_served : ℚ) ∧
      ((runSteps o n (MM1Queue.init a m o)).customers_served ≤ 1000 →
        tb.avg_service_time =
          ((runSteps o n (MM1Queue.init a m o)).completed_customers.map
              Customer.service_time).sum /
            ((runSteps o n (MM1Queue.init a m o)).completed_customers.length : ℚ))) := by
  set s := runSteps o n (MM1Queue.init a m o) with hs
  constructor
  · unfold get_time_breakdown
    split_ifs with h5
    · simpa using h5
    · simpa using h5
  · intro tb htb
    have h5 : ¬ s.customers_served < 5 := by
      intro h5
      rw [get_time_breakdown, if_pos h5] at htb
      exact Option.noConfusion htb
    rw [get_time_breakdown, if_neg h5] at htb
    have hpos : 0 < s.customers_served := by omega
    have htb' := (Option.some.injEq _ _).mp htb
    constructor
    · rw [← htb']
      simp [hpos]
    · intro hle
      have hlen : s.completed_customers.length = s.customers_served :=
        (engineInv_reachable a m o n).2.2.2 hle
      rw [← htb']
      simp [hpos, hlen]

/-- C7 counterexample: after 2003 steps of `MM1Queue(1, 1)` with unit draws,
1001 customers have been served and the log has been trimmed to 500 entries,
every one with `service_time = 1`; the reported `avg_service_time` is
`500/1001`, while the arithmetic mean of `service_time` over the log entries
is `1`. -/
theorem claim_C7_counterexample :
    (get_time_breakdown (runSteps onesOracle 2003 (MM1Queue.init 1 1 onesOracle))).map
        TimeBreakdown.avg_service_time = some (500 / 1001) ∧
    ((runSteps onesOracle 2003 (MM1Queue.init 1 1 onesOracle)).completed_customers.map
          Customer.service_time).sum /
        ((runSteps onesOracle 2003
            (MM1Queue.init 1 1 onesOracle)).completed_customers.length : ℚ) = 1 ∧
    (500 / 1001 : ℚ) ≠ 1 := by
  have h := cycleInv_at 1000
  rw [show 2 * 1000 + 3 = 2003 by norm_num] at h
  obtain ⟨-, -, -, -, -, -, -, -, hsv, hcl, -⟩ := h
  norm_num at hsv hcl
  refine ⟨?_, ?_, by norm_num⟩
  · simp only [get_time_breakdown]
    rw [if_neg (by omega), Option.map_some']
    rw [hcl, hsv, compLog_1001_sum]
    norm_num
  · rw [hcl, compLog_1001_sum, compLog_1001_len]
    norm_num

set_option maxRecDepth 40000 in
/-- C7 witness: the amended statement evaluated after 11 steps of
`MM1Queue(1, 1)` with unit draws (5 served, untrimmed log of 5 unit service
times). -/
theorem claim_C7_witness :
    get_time_breakdown (runSteps onesOracle 11 (MM1Queue.init 1 1 onesOracle)) =
      some { avg_wait_time := 0, avg_service_time := 1, avg_time_in_system := 1,
             wait_fraction := 0, service_fraction := 1 } ∧
    (1 : ℚ) =
      ((runSteps onesOracle 11 (MM1Queue.init 1 1 onesOracle)).completed_customers.map
          Customer.service_time).sum /
        ((runSteps onesOracle 11 (MM1Queue.init 1 1 onesOracle)).customers_served : ℚ) := by
  have htb : get_time_breakdown (runSteps onesOracle 11 (MM1Queue.init 1 1 onesOracle)) =
      some { avg_wait_time := 0, avg_service_time := 1, avg_time_in_system := 1,
             wait_fraction := 0, service_fraction := 1 } := by
    with_unfolding_all decide
  refine ⟨htb, ?_⟩
  have h := ((claim_C7 1 1 onesOracle 11).2 _ htb).1
  simpa using h

/-- A controller switched to the demonstrate-instability strategy with
optimization enabled and phase counter `0`. -/
def optDemo : UtilizationOptimizer :=
  { UtilizationOptimizer.init 1 with optimization_enabled := true, strategy := "demonstrate_instability" }

/-- An engine state with a full measurement window (100 utilization
samples). -/
def qDemo : MM1Queue :=
  { MM1Queue.init 1 1 onesOracle with utilization_history := List.replicate 100 0 }

/-- C5 counterexample: starting from phase counter `0` with a full window,
600 `optimize_step` calls leave the phase counter at `200`, not back at `0` —
the phase cycle has period 400, not 600. -/
theorem claim_C5_counterexample :
    optDemo.demonstration_phase = 0 ∧
    (optIter 600 (optDemo, qDemo)).1.demonstration_phase = 200 ∧
    (200 : Nat) ≠ 0 := by
  have hw : optDemo.measurement_window ≤ qDemo.utilization_history.length := by
    show (100 : Nat) ≤ (List.replicate 100 (0 : ℚ)).length
    simp
  refine ⟨rfl, ?_, by decide⟩
  rw [optIter_phase 600 optDemo qDemo rfl rfl hw]
  show phaseIter 600 0 = 200
  rw [show (600 : Nat) = 400 + 200 from rfl, phaseIter_add 400 200 0, phase_cycle,
    phaseIter_le 200 0 (by omega)]

/-- C5 witness: the per-call phase/rate contract and the 400-call cycle at the
concrete enabled controller with a full window. -/
theorem claim_C5_witness :
    (optimize_step optDemo qDemo).1.demonstration_phase =
      (if optDemo.demonstration_phase + 1 < 400 then optDemo.demonstration_phase + 1
        else 0) ∧
    (optimize_step optDemo qDemo).2.arrival_rate =
      (if optDemo.demonstration_phase + 1 < 200 then
        (if qDemo.arrival_rate / qDemo.service_rate < 6/5 then qDemo.arrival_rate + 1/200
          else qDemo.arrival_rate)
      else if optDemo.demonstration_phase + 1 < 400 then
        (if 4/5 < qDemo.arrival_rate / qDemo.service_rate then qDemo.arrival_rate - 1/100
          else qDemo.arrival_rate)
      else qDemo.arrival_rate) ∧
    (optDemo.demonstration_phase = 0 →
      (optIter 400 (optDemo, qDemo)).1.demonstration_phase = 0) :=
  claim_C5 optDemo qDemo rfl rfl
    (by show (100 : Nat) ≤ (List.replicate 100 (0 : ℚ)).length; simp)

end MM1
